import Mathlib

/-!
Shallow embedding of `frontier_exploration/st_exploration_episode_generator.py`:
the episode buffering, map-deduplication and persistence pipeline
(`ExplorationData`, `STEpisodeGenerator._reset` / `_save_last_episode`,
`save_map`, `hash_2d_binary_array`), together with theorems settling the
specification claims about it.

Modelling conventions:
* numpy arrays of booleans become `List (List Bool)` with explicit shape
  fields; `tobytes` turns each element into one byte (1 or 0), row-major;
* machine words are `Nat` with explicit `% 2 ^ 32` where overflow matters
  (the SHA-256 compression used by `hash_2d_binary_array` is implemented
  in full, FIPS 180-4);
* the filesystem is a pair of lists of paths (files, directories);
  `os.path.join a b` is `a ++ "/" ++ b`; directory contents other than
  paths are out of scope, file writes are recorded as effects;
* Python's fatal `assert` becomes `Except String`; `quit()` becomes a
  dedicated terminal outcome constructor.
-/

namespace FrontierExploration

/-- Model of `os.path.join` for a relative tail component. -/
def pathJoin (a b : String) : String := a ++ "/" ++ b

/-- Model of `os.path.dirname`: everything before the final slash (and the
empty string when there is no slash, as for Python's relative basenames). -/
def dirname (p : String) : String :=
  ⟨(((p.data.reverse).dropWhile (fun c => c ≠ '/')).drop 1).reverse⟩

/-- Decimal digits, most significant first, with explicit recursion fuel so
that the definition reduces inside the kernel. -/
def natDecimalAux : Nat → Nat → List Char
  | 0, _ => []
  | fuel + 1, n =>
    if n < 10 then [Nat.digitChar n]
    else natDecimalAux fuel (n / 10) ++ [Nat.digitChar (n % 10)]

/-- Decimal digits of a natural number, most significant first, as Python's
`str(n)` renders them. -/
def natDecimal (n : Nat) : List Char := natDecimalAux (n + 1) n

/-- Numeric value of a decimal digit character. -/
def charDigit (c : Char) : Nat := c.toNat - 48

/-- Parse a most-significant-first decimal digit list back to a number. -/
def parseDec (l : List Char) : Nat :=
  l.foldl (fun a c => 10 * a + charDigit c) 0

theorem charDigit_digitChar : ∀ d < 10, charDigit (Nat.digitChar d) = d := by
  decide

theorem digitChar_ne_underscore : ∀ d < 10, Nat.digitChar d ≠ '_' := by
  decide

theorem parseDec_append_digit (l : List Char) (c : Char) :
    parseDec (l ++ [c]) = 10 * parseDec l + charDigit c := by
  simp [parseDec, List.foldl_append]

theorem natDecimalAux_fuel (fuel fuel' n : Nat) (hn : n < fuel) (hn' : n < fuel') :
    natDecimalAux fuel n = natDecimalAux fuel' n := by
  induction fuel generalizing fuel' n with
  | zero => omega
  | succ f ih =>
    cases fuel' with
    | zero => omega
    | succ f' =>
      simp only [natDecimalAux]
      split
      · rfl
      · next h =>
        have hdiv : n / 10 < n := Nat.div_lt_self (by omega) (by omega)
        rw [ih f' (n / 10) (by omega) (by omega)]

theorem parseDec_natDecimalAux (fuel n : Nat) (hn : n < fuel) :
    parseDec (natDecimalAux fuel n) = n := by
  induction fuel generalizing n with
  | zero => omega
  | succ f ih =>
    simp only [natDecimalAux]
    split
    · next h => simp [parseDec, charDigit_digitChar n h]
    · next h =>
      have hdiv : n / 10 < n := Nat.div_lt_self (by omega) (by omega)
      rw [parseDec_append_digit, ih (n / 10) (by omega),
        charDigit_digitChar (n % 10) (Nat.mod_lt _ (by omega))]
      omega

theorem parseDec_natDecimal (n : Nat) : parseDec (natDecimal n) = n :=
  parseDec_natDecimalAux (n + 1) n (by omega)

theorem natDecimal_injective {a b : Nat} (h : natDecimal a = natDecimal b) :
    a = b := by
  have := parseDec_natDecimal a
  rw [h, parseDec_natDecimal b] at this
  omega

theorem natDecimalAux_no_underscore (fuel n : Nat) (hn : n < fuel) :
    '_' ∉ natDecimalAux fuel n := by
  induction fuel generalizing n with
  | zero => omega
  | succ f ih =>
    simp only [natDecimalAux]
    split
    · next h =>
      simp
      exact fun hc => digitChar_ne_underscore n h hc.symm
    · next h =>
      intro hmem
      have hdiv : n / 10 < n := Nat.div_lt_self (by omega) (by omega)
      rcases List.mem_append.mp hmem with hl | hr
      · exact ih (n / 10) (by omega) hl
      · simp at hr
        exact digitChar_ne_underscore (n % 10) (Nat.mod_lt _ (by omega)) hr.symm

theorem natDecimal_no_underscore (n : Nat) : '_' ∉ natDecimal n :=
  natDecimalAux_no_underscore (n + 1) n (by omega)

/-- Python's `str` on a natural number, as a `String`. -/
def natDecimalStr (n : Nat) : String := ⟨natDecimal n⟩

/-- Python's `str` on an `int` (possible leading minus sign). -/
def intDecimal (i : Int) : String :=
  if i < 0 then "-" ++ natDecimalStr i.natAbs else natDecimalStr i.natAbs

/-- Splitting two lists at a separator character that occurs in neither left
part: the decomposition is unique. -/
theorem append_sep_inj {l1 l2 r1 r2 : List Char} {c : Char}
    (h1 : c ∉ l1) (h2 : c ∉ l2) (h : l1 ++ c :: r1 = l2 ++ c :: r2) :
    l1 = l2 ∧ r1 = r2 := by
  induction l1 generalizing l2 with
  | nil =>
    cases l2 with
    | nil => simpa using h
    | cons x xs =>
      simp at h
      exact absurd (h.1 ▸ List.mem_cons_self x xs) h2
  | cons a as ih =>
    cases l2 with
    | nil =>
      simp at h
      exact absurd (h.1 ▸ List.mem_cons_self a as) h1
    | cons b bs =>
      simp at h
      obtain ⟨hab, htl⟩ := h
      have := ih (fun hm => h1 (List.mem_cons_of_mem a hm))
        (fun hm => h2 (hab ▸ List.mem_cons_of_mem b hm)) htl
      exact ⟨by simp [hab, this.1], this.2⟩

/-! SHA-256 (FIPS 180-4) over byte lists, words as `Nat` mod `2 ^ 32`.
This is the `hashlib.sha256` used by `hash_2d_binary_array`. -/

/-- Word size modulus. -/
def M32 : Nat := 4294967296

/-- Right rotation of a 32-bit word. -/
def rotr32 (n x : Nat) : Nat := ((x >>> n) ||| (x <<< (32 - n))) % M32

/-- Choice function of the SHA-256 round. -/
def shaCh (e f g : Nat) : Nat := (e &&& f) ^^^ ((e ^^^ 4294967295) &&& g)

/-- Majority function of the SHA-256 round. -/
def shaMaj (a b c : Nat) : Nat := (a &&& b) ^^^ (a &&& c) ^^^ (b &&& c)

/-- Big sigma-0 of the SHA-256 round. -/
def bigSigma0 (a : Nat) : Nat := rotr32 2 a ^^^ rotr32 13 a ^^^ rotr32 22 a

/-- Big sigma-1 of the SHA-256 round. -/
def bigSigma1 (e : Nat) : Nat := rotr32 6 e ^^^ rotr32 11 e ^^^ rotr32 25 e

/-- Small sigma-0 of the message schedule. -/
def smallSigma0 (w : Nat) : Nat := rotr32 7 w ^^^ rotr32 18 w ^^^ (w >>> 3)

/-- Small sigma-1 of the message schedule. -/
def smallSigma1 (w : Nat) : Nat := rotr32 17 w ^^^ rotr32 19 w ^^^ (w >>> 10)

/-- The 64 SHA-256 round constants (FIPS 180-4, written in decimal). -/
def sha256K : List Nat :=
  [1116352408, 1899447441, 3049323471, 3921009573,
   961987163, 1508970993, 2453635748, 2870763221,
   3624381080, 310598401, 607225278, 1426881987,
   1925078388, 2162078206, 2614888103, 3248222580,
   3835390401, 4022224774, 264347078, 604807628,
   770255983, 1249150122, 1555081692, 1996064986,
   2554220882, 2821834349, 2952996808, 3210313671,
   3336571891, 3584528711, 113926993, 338241895,
   666307205, 773529912, 1294757372, 1396182291,
   1695183700, 1986661051, 2177026350, 2456956037,
   2730485921, 2820302411, 3259730800, 3345764771,
   3516065817, 3600352804, 4094571909, 275423344,
   430227734, 506948616, 659060556, 883997877,
   958139571, 1322822218, 1537002063, 1747873779,
   1955562222, 2024104815, 2227730452, 2361852424,
   2428436474, 2756734187, 3204031479, 3329325298]

/-- The eight 32-bit working variables of the compression function. -/
structure Hash8 where
  a : Nat
  b : Nat
  c : Nat
  d : Nat
  e : Nat
  f : Nat
  g : Nat
  h : Nat
  deriving DecidableEq

/-- SHA-256 initial hash value (FIPS 180-4, written in decimal). -/
def sha256Init : Hash8 :=
  ⟨1779033703, 3144134277, 1013904242, 2773480762,
   1359893119, 2600822924, 528734635, 1541459225⟩

/-- The big-endian 64-bit length field appended by SHA-256 padding. -/
def lengthBytes (n : Nat) : List Nat :=
  (List.range 8).map fun i => (n >>> (8 * (7 - i))) % 256

/-- SHA-256 padding: a 0x80 byte, zeros to 56 mod 64, then the bit length. -/
def padMessage (msg : List Nat) : List Nat :=
  let z := (119 - (msg.length % 64)) % 64
  msg ++ [128] ++ List.replicate z 0 ++ lengthBytes (8 * msg.length)

/-- Split a byte list into its 64-byte blocks (the padded message's length is
always a positive multiple of 64, so the index form below is exact). -/
def toBlocks (l : List Nat) : List (List Nat) :=
  (List.range ((l.length + 63) / 64)).map fun i => (l.drop (64 * i)).take 64

/-- The sixteen big-endian 32-bit words of one 64-byte block. -/
def blockWords (b : List Nat) : Array Nat :=
  ((List.range 16).map fun i =>
    (b.getD (4 * i) 0) <<< 24 ||| (b.getD (4 * i + 1) 0) <<< 16 |||
    (b.getD (4 * i + 2) 0) <<< 8 ||| b.getD (4 * i + 3) 0).toArray

/-- Message schedule: extend the sixteen block words to sixty-four. -/
def schedule (ws : Array Nat) : Array Nat :=
  (List.range 48).foldl
    (fun w i =>
      let t := (smallSigma1 (w.getD (i + 14) 0) + w.getD (i + 9) 0 +
        smallSigma0 (w.getD (i + 1) 0) + w.getD i 0) % M32
      w.push t)
    ws

/-- One round of the SHA-256 compression function. -/
def roundStep (s : Hash8) (kw : Nat × Nat) : Hash8 :=
  let t1 := (s.h + bigSigma1 s.e + shaCh s.e s.f s.g + kw.1 + kw.2) % M32
  let t2 := (bigSigma0 s.a + shaMaj s.a s.b s.c) % M32
  ⟨(t1 + t2) % M32, s.a, s.b, s.c, (s.d + t1) % M32, s.e, s.f, s.g⟩

/-- Compress one 64-byte block into the running hash state. -/
def compressBlock (s : Hash8) (b : List Nat) : Hash8 :=
  let w := schedule (blockWords b)
  let r := (sha256K.zip w.toList).foldl roundStep s
  ⟨(s.a + r.a) % M32, (s.b + r.b) % M32, (s.c + r.c) % M32, (s.d + r.d) % M32,
   (s.e + r.e) % M32, (s.f + r.f) % M32, (s.g + r.g) % M32, (s.h + r.h) % M32⟩

/-- The eight final hash words of a byte message. -/
def sha256Words (msg : List Nat) : Hash8 :=
  (toBlocks (padMessage msg)).foldl compressBlock sha256Init

/-- Lower-case hexadecimal digit character. -/
def hexDigit (n : Nat) : Char :=
  if n < 10 then Char.ofNat (48 + n) else Char.ofNat (87 + n)

/-- The eight hex characters of one 32-bit word, most significant first. -/
def toHex8 (w : Nat) : List Char :=
  (List.range 8).map fun i => hexDigit ((w >>> ((7 - i) * 4)) &&& 15)

/-- The 64 hex characters of a SHA-256 digest. -/
def sha256hexChars (msg : List Nat) : List Char :=
  let s := sha256Words msg
  toHex8 s.a ++ toHex8 s.b ++ toHex8 s.c ++ toHex8 s.d ++
  toHex8 s.e ++ toHex8 s.f ++ toHex8 s.g ++ toHex8 s.h

/-- Model of `hashlib.sha256(bytes).hexdigest()`. -/
def sha256hex (msg : List Nat) : String := ⟨sha256hexChars msg⟩

theorem length_toHex8 (w : Nat) : (toHex8 w).length = 8 := by
  simp [toHex8]

theorem length_sha256hexChars (msg : List Nat) :
    (sha256hexChars msg).length = 64 := by
  simp [sha256hexChars, length_toHex8]

/-! The top-down map (`self.top_down_map`): a 2D numpy array of booleans,
modelled with explicit shape and row-major data. -/

/-- A 2D boolean numpy array: shape `(H, W)` plus its rows. -/
structure BinMap2D where
  H : Nat
  W : Nat
  data : List (List Bool)
  data_len : data.length = H
  row_len : ∀ r ∈ data, r.length = W

/-- One byte of `ndarray.tobytes()` for a boolean element. -/
def boolByte (b : Bool) : Nat := cond b 1 0

/-- Model of `arr.flatten().tobytes()`: row-major bytes of the array. -/
def flat_bytes (m : BinMap2D) : List Nat := m.data.flatten.map boolByte

/-- Python's `'_'.join` on a list of strings. -/
def joinUnderscore : List String → String
  | [] => ""
  | [s] => s
  | s :: rest => s ++ "_" ++ joinUnderscore rest

/-- Model of `hash_2d_binary_array` (source lines 161-171): SHA-256 hex digest
of the flattened bytes, then an underscore-joined shape suffix. -/
def hash_2d_binary_array (m : BinMap2D) : String :=
  let arr_shape : List Nat := [m.H, m.W]
  let flat : List Nat := flat_bytes m
  sha256hex flat ++ "_" ++ joinUnderscore (arr_shape.map natDecimalStr)

/-- Modelled from the spec's words for `digest_of`: raw bytes taken row-major
by indexing (row `i`, column `j` at flat position `i * W + j`), hashed with
SHA-256, with the shape dimensions appended. -/
def rowMajorBytes (m : BinMap2D) : List Nat :=
  (List.range m.H).flatMap fun i =>
    (List.range m.W).map fun j => boolByte ((m.data.getD i []).getD j false)

/-- The spec's `digest_of`: hex digest, underscore, dim0, underscore, dim1. -/
def digest_of (m : BinMap2D) : String :=
  sha256hex (rowMajorBytes m) ++ "_" ++ natDecimalStr m.H ++ "_" ++ natDecimalStr m.W

theorem row_bytes_eq (r : List Bool) :
    r.map boolByte = (List.range r.length).map fun j => boolByte (r.getD j false) := by
  induction r with
  | nil => rfl
  | cons a t ih =>
    simp only [List.length_cons, List.range_succ_eq_map, List.map_cons,
      List.map_map, List.getD_cons_zero]
    refine congrArg (boolByte a :: ·) ?_
    rw [ih]
    rfl

theorem flat_bytes_eq_rowMajor (m : BinMap2D) : flat_bytes m = rowMajorBytes m := by
  suffices hgen : ∀ (rows : List (List Bool)) (W : Nat), (∀ r ∈ rows, r.length = W) →
      rows.flatten.map boolByte =
      (List.range rows.length).flatMap
        (fun i => (List.range W).map fun j => boolByte ((rows.getD i []).getD j false)) by
    have := hgen m.data m.W m.row_len
    simp only [flat_bytes, rowMajorBytes, m.data_len] at this ⊢
    rw [this]
  intro rows W hW
  induction rows with
  | nil => rfl
  | cons r rs ih =>
    simp only [List.flatten_cons, List.map_append, List.length_cons,
      List.range_succ_eq_map, List.flatMap_cons, List.getD_cons_zero]
    have hr : r.length = W := hW r (List.mem_cons_self r rs)
    congr 1
    · rw [← hr]
      exact row_bytes_eq r
    · rw [List.flatMap_map]
      simp only [List.getD_cons_succ]
      exact ih fun r' hr' => hW r' (List.mem_cons_of_mem r hr')

/-- C5: the digest returned by `hash_2d_binary_array` is exactly the SHA-256
hex digest of the row-major flattened bytes followed by the underscore-joined
shape dimensions, and bit-identical content and shape give identical keys. -/
theorem hash_2d_binary_array_spec :
    (∀ m : BinMap2D, hash_2d_binary_array m = digest_of m) ∧
    (∀ m₁ m₂ : BinMap2D, m₁.data = m₂.data → m₁.H = m₂.H → m₁.W = m₂.W →
      hash_2d_binary_array m₁ = hash_2d_binary_array m₂) := by
  have hmain : ∀ m : BinMap2D, hash_2d_binary_array m = digest_of m := by
    intro m
    show sha256hex (flat_bytes m) ++ "_" ++
        joinUnderscore [natDecimalStr m.H, natDecimalStr m.W] = _
    rw [flat_bytes_eq_rowMajor]
    show _ = sha256hex (rowMajorBytes m) ++ "_" ++ natDecimalStr m.H ++ "_" ++ natDecimalStr m.W
    have hjoin : joinUnderscore [natDecimalStr m.H, natDecimalStr m.W] =
        natDecimalStr m.H ++ "_" ++ natDecimalStr m.W := rfl
    rw [hjoin, ← String.append_assoc, ← String.append_assoc]
  refine ⟨hmain, fun m₁ m₂ hdata hH hW => ?_⟩
  unfold hash_2d_binary_array flat_bytes
  rw [hdata, hH, hW]

/-- C5 witness at a concrete 1-by-2 map. -/
theorem hash_2d_binary_array_spec_witness :
    hash_2d_binary_array ⟨1, 2, [[true, false]], rfl, by simp⟩ =
      digest_of ⟨1, 2, [[true, false]], rfl, by simp⟩ ∧
    hash_2d_binary_array ⟨1, 2, [[true, false]], rfl, by simp⟩ =
      hash_2d_binary_array ⟨1, 2, [[true, false]], rfl, by simp⟩ :=
  ⟨hash_2d_binary_array_spec.1 ⟨1, 2, [[true, false]], rfl, by simp⟩,
   hash_2d_binary_array_spec.2 ⟨1, 2, [[true, false]], rfl, by simp⟩
     ⟨1, 2, [[true, false]], rfl, by simp⟩ rfl rfl rfl⟩

theorem data_hash_2d_binary_array (m : BinMap2D) :
    (hash_2d_binary_array m).data =
      sha256hexChars (flat_bytes m) ++ '_' :: (natDecimal m.H ++ '_' :: natDecimal m.W) := by
  show (sha256hex (flat_bytes m) ++ "_" ++
      joinUnderscore [natDecimalStr m.H, natDecimalStr m.W]).data = _
  have hjoin : joinUnderscore [natDecimalStr m.H, natDecimalStr m.W] =
      natDecimalStr m.H ++ "_" ++ natDecimalStr m.W := rfl
  rw [hjoin]
  simp only [String.data_append]
  show sha256hexChars (flat_bytes m) ++ ['_'] ++ (natDecimal m.H ++ ['_'] ++ natDecimal m.W) = _
  simp

/-- C6: two maps with different shapes get different digest keys, whatever
their contents hash to, because the shape is appended after the fixed-width
hex digest. -/
theorem hash_2d_binary_array_shape_injective (a b : BinMap2D)
    (h : ¬(a.H = b.H ∧ a.W = b.W)) :
    hash_2d_binary_array a ≠ hash_2d_binary_array b := by
  intro heq
  have hdata := congrArg String.data heq
  rw [data_hash_2d_binary_array, data_hash_2d_binary_array] at hdata
  have hlen : (sha256hexChars (flat_bytes a)).length =
      (sha256hexChars (flat_bytes b)).length := by
    rw [length_sha256hexChars, length_sha256hexChars]
  have htail := (List.append_inj hdata hlen).2
  have htail2 : natDecimal a.H ++ '_' :: natDecimal a.W =
      natDecimal b.H ++ '_' :: natDecimal b.W := by
    injection htail
  have := append_sep_inj (natDecimal_no_underscore a.H)
    (natDecimal_no_underscore b.H) htail2
  exact h ⟨natDecimal_injective this.1, natDecimal_injective this.2⟩

/-- C6 witness: concrete shapes (1, 1) and (1, 2) give different keys. -/
theorem hash_2d_binary_array_shape_injective_witness :
    ¬((⟨1, 1, [[true]], rfl, by simp⟩ : BinMap2D).H =
        (⟨1, 2, [[true, true]], rfl, by simp⟩ : BinMap2D).H ∧
      (⟨1, 1, [[true]], rfl, by simp⟩ : BinMap2D).W =
        (⟨1, 2, [[true, true]], rfl, by simp⟩ : BinMap2D).W) ∧
    hash_2d_binary_array ⟨1, 1, [[true]], rfl, by simp⟩ ≠
      hash_2d_binary_array ⟨1, 2, [[true, true]], rfl, by simp⟩ :=
  ⟨by decide,
   hash_2d_binary_array_shape_injective ⟨1, 1, [[true]], rfl, by simp⟩
     ⟨1, 2, [[true, true]], rfl, by simp⟩ (by decide)⟩

/-! numpy bit packing, as used by `save_map` (`np.packbits`), together with
its inverse (`np.unpackbits` plus truncation and reshape). -/

/-- The byte packing eight bits, most significant first (numpy's default
big bit order). -/
def byteFromBits (b0 b1 b2 b3 b4 b5 b6 b7 : Bool) : Nat :=
  128 * b0.toNat + 64 * b1.toNat + 32 * b2.toNat + 16 * b3.toNat +
  8 * b4.toNat + 4 * b5.toNat + 2 * b6.toNat + b7.toNat

/-- Pack a partial final group of fewer than eight bits, zero-padded at the
end as `np.packbits` pads. -/
def byteFromPartial (l : List Bool) : Nat :=
  byteFromBits (l.getD 0 false) (l.getD 1 false) (l.getD 2 false)
    (l.getD 3 false) (l.getD 4 false) (l.getD 5 false) (l.getD 6 false)
    (l.getD 7 false)

/-- Model of `np.packbits` on a flattened boolean array. -/
def packbits : List Bool → List Nat
  | [] => []
  | b0 :: b1 :: b2 :: b3 :: b4 :: b5 :: b6 :: b7 :: rest =>
    byteFromBits b0 b1 b2 b3 b4 b5 b6 b7 :: packbits rest
  | l => [byteFromPartial l]

/-- The eight bits of one byte, most significant first. -/
def bitsOfByte (n : Nat) : List Bool :=
  [n.testBit 7, n.testBit 6, n.testBit 5, n.testBit 4,
   n.testBit 3, n.testBit 2, n.testBit 1, n.testBit 0]

/-- Model of `np.unpackbits`. -/
def unpackbits : List Nat → List Bool
  | [] => []
  | b :: rest => bitsOfByte b ++ unpackbits rest

/-- Rebuild `h` rows of `w` elements from a flat list. -/
def reshape (w : Nat) : Nat → List Bool → List (List Bool)
  | 0, _ => []
  | hh + 1, l => l.take w :: reshape w hh (l.drop w)

theorem bitsOfByte_byteFromBits :
    ∀ b0 b1 b2 b3 b4 b5 b6 b7 : Bool,
      bitsOfByte (byteFromBits b0 b1 b2 b3 b4 b5 b6 b7) =
        [b0, b1, b2, b3, b4, b5, b6, b7] := by
  decide

theorem take_unpackbits_packbits (bs : List Bool) :
    (unpackbits (packbits bs)).take bs.length = bs := by
  match bs with
  | [] => rfl
  | [b0] => revert b0; decide
  | [b0, b1] => revert b0 b1; decide
  | [b0, b1, b2] => revert b0 b1 b2; decide
  | [b0, b1, b2, b3] => revert b0 b1 b2 b3; decide
  | [b0, b1, b2, b3, b4] => revert b0 b1 b2 b3 b4; decide
  | [b0, b1, b2, b3, b4, b5] => revert b0 b1 b2 b3 b4 b5; decide
  | [b0, b1, b2, b3, b4, b5, b6] => revert b0 b1 b2 b3 b4 b5 b6; decide
  | b0 :: b1 :: b2 :: b3 :: b4 :: b5 :: b6 :: b7 :: rest =>
    have ih := take_unpackbits_packbits rest
    simp only [packbits, unpackbits, bitsOfByte_byteFromBits, List.length_cons,
      List.cons_append, List.nil_append, List.take_succ_cons]
    rw [ih]
  termination_by bs.length

theorem length_flatten_uniform (m : BinMap2D) :
    m.data.flatten.length = m.H * m.W := by
  have : ∀ (rows : List (List Bool)) (W : Nat), (∀ r ∈ rows, r.length = W) →
      rows.flatten.length = rows.length * W := by
    intro rows W hW
    induction rows with
    | nil => simp
    | cons r rs ih =>
      simp only [List.flatten_cons, List.length_append, List.length_cons,
        hW r (List.mem_cons_self r rs),
        ih fun r' hr' => hW r' (List.mem_cons_of_mem r hr')]
      ring
  rw [this m.data m.W m.row_len, m.data_len]

theorem reshape_flatten (m : BinMap2D) : reshape m.W m.H m.data.flatten = m.data := by
  suffices hgen : ∀ (rows : List (List Bool)) (W : Nat), (∀ r ∈ rows, r.length = W) →
      reshape W rows.length rows.flatten = rows by
    have := hgen m.data m.W m.row_len
    rw [m.data_len] at this
    exact this
  intro rows W hW
  induction rows with
  | nil => rfl
  | cons r rs ih =>
    have hr : r.length = W := hW r (List.mem_cons_self r rs)
    simp only [List.length_cons, List.flatten_cons, reshape]
    rw [← hr, List.take_left, List.drop_left, hr,
      ih fun r' hr' => hW r' (List.mem_cons_of_mem r hr')]

/-- C9: bit-packing a boolean array of shape (H, W) as `save_map` does and
unpacking with the original shape (truncating the pad bits, then reshaping)
recovers the original array exactly, also when `H * W` is not a multiple
of eight. -/
theorem packbits_roundtrip (m : BinMap2D) :
    reshape m.W m.H ((unpackbits (packbits m.data.flatten)).take (m.H * m.W)) =
      m.data := by
  rw [← length_flatten_uniform m, take_unpackbits_packbits, reshape_flatten]

/-! Filesystem model: the sets of file paths and directory paths under the
output tree. Only paths are tracked; file contents are recorded as effects.
`makedirs` registers the single directory it is asked for — ancestors are
omitted because the code only ever counts direct children of `scene_dir`,
and every ancestor it creates lies outside or above that level. -/

/-- Paths present on disk. -/
structure FS where
  files : List String
  dirs : List String
  deriving DecidableEq

/-- Model of `os.path.isfile`. -/
def FS.isFile (fs : FS) (p : String) : Bool := fs.files.contains p

/-- Model of `os.path.exists` on a directory path. -/
def FS.isDir (fs : FS) (p : String) : Bool := fs.dirs.contains p

/-- Record a newly written file. -/
def FS.addFile (fs : FS) (p : String) : FS :=
  if fs.isFile p then fs else ⟨p :: fs.files, fs.dirs⟩

/-- Model of `os.makedirs(p, exist_ok=True)`. -/
def FS.makedirs (fs : FS) (p : String) : FS :=
  if fs.isDir p then fs else ⟨fs.files, p :: fs.dirs⟩

/-- Whether `d` is a directory directly inside `parent`, as the glob pattern
`parent/*/` matches it: `parent`, a slash, then a slash-free name. -/
def isDirectChild (parent d : String) : Bool :=
  let p := parent.data ++ ['/']
  p.isPrefixOf d.data && decide (p.length < d.data.length) &&
    (d.data.drop p.length).all fun c => c ≠ '/'

/-- Model of `len(glob.glob(os.path.join(scene_dir, "*/")))`: the number of
directories directly under `scene_dir`. -/
def countDirectSubdirs (fs : FS) (scene_dir : String) : Nat :=
  (fs.dirs.filter fun d => isDirectChild scene_dir d).length

/-- Model of `save_map` (source lines 155-158): create the parent directory,
bit-pack the boolean array, write it at `filepath`. -/
def save_map (np_arr : BinMap2D) (filepath : String) (fs : FS) : FS :=
  ((fs.makedirs (dirname filepath)).addFile filepath)

/-- The packed bytes `save_map` writes at `filepath`. -/
def save_map_content (np_arr : BinMap2D) : List Nat :=
  packbits np_arr.data.flatten

/-- The digest-derived path the map store uses inside a scene directory. -/
def storePath (m : BinMap2D) (scene_dir : String) : String :=
  pathJoin (pathJoin scene_dir "topdown_maps") (hash_2d_binary_array m ++ ".npy")

/-- The spec's `store_if_absent`, embedded from source lines 50-63: compute
the digest path, skip the write when the file exists, otherwise `save_map`.
Returns the path, the new filesystem, and whether a write happened. -/
def store_if_absent (m : BinMap2D) (scene_dir : String) (fs : FS) :
    String × FS × Bool :=
  let map_filename := storePath m scene_dir
  if fs.isFile map_filename then (map_filename, fs, false)
  else (map_filename, save_map m map_filename fs, true)

/-- Iterate `store_if_absent` for the same map and scene directory, counting
the physical writes performed. -/
def storeCalls (m : BinMap2D) (scene_dir : String) : Nat → FS → FS × Nat
  | 0, fs => (fs, 0)
  | n + 1, fs =>
    let r := store_if_absent m scene_dir fs
    let rest := storeCalls m scene_dir n r.2.1
    (rest.1, (if r.2.2 then 1 else 0) + rest.2)

theorem isFile_addFile (fs : FS) (p : String) : (fs.addFile p).isFile p = true := by
  unfold FS.addFile
  split
  · next h => exact h
  · simp [FS.isFile, List.contains_cons]

theorem isFile_after_store (m : BinMap2D) (scene_dir : String) (fs : FS) :
    ((store_if_absent m scene_dir fs).2.1).isFile (storePath m scene_dir) = true := by
  by_cases h : fs.isFile (storePath m scene_dir) = true
  · simp [store_if_absent, h]
  · simp [store_if_absent, h, save_map, isFile_addFile]

theorem store_skips_when_present (m : BinMap2D) (scene_dir : String) (fs : FS)
    (h : fs.isFile (storePath m scene_dir) = true) :
    store_if_absent m scene_dir fs = (storePath m scene_dir, fs, false) := by
  unfold store_if_absent
  simp [h]

theorem storeCalls_no_write_when_present (m : BinMap2D) (scene_dir : String)
    (n : Nat) (fs : FS) (h : fs.isFile (storePath m scene_dir) = true) :
    storeCalls m scene_dir n fs = (fs, 0) := by
  induction n with
  | zero => rfl
  | succ k ih =>
    simp only [storeCalls, store_skips_when_present m scene_dir fs h, ih]
    simp

/-- C7: the map store is idempotent — `store_if_absent` always returns the
same digest-derived path for the same map, it skips the write when a file is
already present at that path (still returning the path), and any number of
repeated calls performs at most one physical write. -/
theorem store_if_absent_idempotent (m : BinMap2D) (scene_dir : String) (fs : FS)
    (n : Nat) :
    (store_if_absent m scene_dir fs).1 = storePath m scene_dir ∧
    (store_if_absent m scene_dir (fs.addFile (storePath m scene_dir))) =
      (storePath m scene_dir, fs.addFile (storePath m scene_dir), false) ∧
    (storeCalls m scene_dir n fs).2 ≤ 1 := by
  refine ⟨?_, store_skips_when_present m scene_dir _ (isFile_addFile fs _), ?_⟩
  · by_cases h : fs.isFile (storePath m scene_dir) = true <;>
      simp [store_if_absent, h]
  · cases n with
    | zero => exact Nat.zero_le 1
    | succ k =>
      have hzero := storeCalls_no_write_when_present m scene_dir k
        ((store_if_absent m scene_dir fs).2.1) (isFile_after_store m scene_dir fs)
      simp only [storeCalls, hzero]
      split <;> simp

/-! The episode buffer `ExplorationData` (source lines 102-152), polymorphic
in the per-step payloads: `F` an RGB frame, `P` a world pose (`list[float]`),
`X` a pixel pose after `.tolist()`. -/

/-- One value of the JSON dictionary `record` dumps. -/
inductive JField (P X : Type) where
  | int (i : Int)
  | str (s : String)
  | poses (l : List P)
  | pixels (l : List X)
  deriving DecidableEq

/-- The JSON object as an ordered key-value list. -/
def JsonObj (P X : Type) := List (String × JField P X)

/-- One observable filesystem effect of a flush. -/
inductive Effect (F P X : Type) where
  | makedirs (dir : String)
  | writeJson (path : String) (content : List (String × JField P X))
  | images_to_video (frames : List F) (path : String)
  deriving DecidableEq

/-- The episode buffer: three parallel sequences plus identity fields, all
as `__init__` creates them. -/
structure ExplorationData (F P X : Type) where
  rgb_images : List F
  trajectory : List P
  trajectory_pixels : List X
  ep_id : Option Int
  ep_scene_id : Option String
  map_filename : Option String
  deriving DecidableEq

namespace ExplorationData

/-- A freshly constructed buffer: `ExplorationData()`. -/
def empty (F P X : Type) : ExplorationData F P X := ⟨[], [], [], none, none, none⟩

/-- Model of `__len__`. -/
def size (d : ExplorationData F P X) : Nat := d.rgb_images.length

/-- Model of `set_ids`. -/
def set_ids (d : ExplorationData F P X) (ep_id : Int) (ep_scene_id map_filename : String) :
    ExplorationData F P X :=
  { d with ep_id := some ep_id, ep_scene_id := some ep_scene_id,
           map_filename := some map_filename }

/-- Model of `append`: extend the three parallel sequences. -/
def append (d : ExplorationData F P X) (rgb_image : F) (pose : P) (pose_pixel : X) :
    ExplorationData F P X :=
  { d with rgb_images := d.rgb_images ++ [rgb_image],
           trajectory := d.trajectory ++ [pose],
           trajectory_pixels := d.trajectory_pixels ++ [pose_pixel] }

/-- Model of `record` (source lines 124-152). The two `assert` statements
become the error branch, taken before any effect; on success the effects are
the directory creation when `episode_directory` is missing, the single JSON
dump, and the hand-off of the frames to `images_to_video`. The method writes
no attribute of `self`, so the buffer state it leaves behind is the receiver
itself, returned here alongside the effects. -/
def record (d : ExplorationData F P X) (episode_directory : String)
    (dirExists : Bool) :
    Except String (List (Effect F P X) × ExplorationData F P X) :=
  if d.rgb_images.length = d.trajectory.length ∧
      d.trajectory.length = d.trajectory_pixels.length then
    match d.ep_id, d.ep_scene_id, d.map_filename with
    | some i, some s, some mf =>
      let json_path := pathJoin episode_directory (s ++ "_" ++ intDecimal i ++ ".json")
      let content : List (String × JField P X) :=
        [("ep_id", .int i), ("ep_scene_id", .str s),
         ("trajectory", .poses d.trajectory),
         ("trajectory_pixels", .pixels d.trajectory_pixels),
         ("map_filename", .str mf)]
      let video_path := pathJoin episode_directory "video.mp4"
      .ok ((if dirExists then [] else [.makedirs episode_directory]) ++
        [.writeJson json_path content, .images_to_video d.rgb_images video_path], d)
    | _, _, _ => .error "assert ids"
  else .error "assert lengths"

end ExplorationData

/-- C3: a flush proceeds exactly when the three parallel sequences have equal
lengths and the three identity fields are set; any other buffer state makes
`record` fail on an assertion, producing no effect. -/
theorem record_ok_iff {F P X : Type} (d : ExplorationData F P X)
    (episode_directory : String) (dirExists : Bool) :
    (∃ out, d.record episode_directory dirExists = .ok out) ↔
      (d.rgb_images.length = d.trajectory.length ∧
        d.trajectory.length = d.trajectory_pixels.length) ∧
      d.ep_id ≠ none ∧ d.ep_scene_id ≠ none ∧ d.map_filename ≠ none := by
  unfold ExplorationData.record
  split
  · next hlen =>
    match hid : d.ep_id, hsc : d.ep_scene_id, hmf : d.map_filename with
    | some i, some s, some mf => simp [hlen]
    | none, _, _ => simp [hlen]
    | some i, none, _ => simp [hlen]
    | some i, some s, none => simp [hlen]
  · next hlen => simp [hlen]

/-- C8: on a successful flush, the buffer ensures the episode directory
exists, dumps exactly one JSON file named from the scene and episode ids and
holding exactly the five expected keys with the buffered values, and hands
the frame sequence with the `video.mp4` output path to the video encoder. -/
theorem record_output {F P X : Type} (d : ExplorationData F P X)
    (episode_directory : String) (dirExists : Bool) (i : Int) (s mf : String)
    (hlen : d.rgb_images.length = d.trajectory.length ∧
      d.trajectory.length = d.trajectory_pixels.length)
    (hid : d.ep_id = some i) (hsc : d.ep_scene_id = some s)
    (hmf : d.map_filename = some mf) :
    d.record episode_directory dirExists = .ok
      ((if dirExists then [] else [.makedirs episode_directory]) ++
        [.writeJson (pathJoin episode_directory (s ++ "_" ++ intDecimal i ++ ".json"))
          [("ep_id", .int i), ("ep_scene_id", .str s),
           ("trajectory", .poses d.trajectory),
           ("trajectory_pixels", .pixels d.trajectory_pixels),
           ("map_filename", .str mf)],
         .images_to_video d.rgb_images (pathJoin episode_directory "video.mp4")], d) := by
  unfold ExplorationData.record
  rw [hid, hsc, hmf]
  simp [hlen]

/-- C8 witness: a concrete one-step buffer flushed into an existing
directory. -/
theorem record_output_witness :
    (((⟨[7], [3], [5], some 4, some "sc", some "mp"⟩ :
        ExplorationData Nat Nat Nat).rgb_images.length =
          (⟨[7], [3], [5], some 4, some "sc", some "mp"⟩ :
            ExplorationData Nat Nat Nat).trajectory.length) ∧
      ((⟨[7], [3], [5], some 4, some "sc", some "mp"⟩ :
        ExplorationData Nat Nat Nat).trajectory.length =
          (⟨[7], [3], [5], some 4, some "sc", some "mp"⟩ :
            ExplorationData Nat Nat Nat).trajectory_pixels.length)) ∧
    (⟨[7], [3], [5], some 4, some "sc", some "mp"⟩ :
        ExplorationData Nat Nat Nat).record "ep" true = .ok
      ([.writeJson (pathJoin "ep" ("sc" ++ "_" ++ intDecimal 4 ++ ".json"))
          [("ep_id", .int 4), ("ep_scene_id", .str "sc"),
           ("trajectory", .poses [3]), ("trajectory_pixels", .pixels [5]),
           ("map_filename", .str "mp")],
        .images_to_video [7] (pathJoin "ep" "video.mp4")],
       ⟨[7], [3], [5], some 4, some "sc", some "mp"⟩) :=
  ⟨⟨rfl, rfl⟩,
   record_output (⟨[7], [3], [5], some 4, some "sc", some "mp"⟩ :
       ExplorationData Nat Nat Nat) "ep" true 4 "sc" "mp" ⟨rfl, rfl⟩ rfl rfl rfl⟩

/-- C10: a fresh buffer has all three sequences empty, one `append` extends
each of the three by exactly one element, and after any sequence of appends
all three lengths equal the number of appends (which `__len__` reports), so
the length-equality assertion in `record` holds on any append-only buffer. -/
theorem append_parallel_invariant {F P X : Type} :
    ((ExplorationData.empty F P X).rgb_images = [] ∧
      (ExplorationData.empty F P X).trajectory = [] ∧
      (ExplorationData.empty F P X).trajectory_pixels = []) ∧
    (∀ (d : ExplorationData F P X) f p x,
      (d.append f p x).rgb_images.length = d.rgb_images.length + 1 ∧
      (d.append f p x).trajectory.length = d.trajectory.length + 1 ∧
      (d.append f p x).trajectory_pixels.length = d.trajectory_pixels.length + 1) ∧
    (∀ steps : List (F × P × X),
      let d := steps.foldl (fun d st => d.append st.1 st.2.1 st.2.2)
        (ExplorationData.empty F P X)
      d.rgb_images.length = steps.length ∧
      d.trajectory.length = steps.length ∧
      d.trajectory_pixels.length = steps.length ∧
      d.size = steps.length ∧
      (d.rgb_images.length = d.trajectory.length ∧
        d.trajectory.length = d.trajectory_pixels.length)) := by
  refine ⟨⟨rfl, rfl, rfl⟩,
    fun d f p x => ⟨by simp [ExplorationData.append], by simp [ExplorationData.append],
      by simp [ExplorationData.append]⟩, fun steps => ?_⟩
  suffices hgen : ∀ (steps : List (F × P × X)) (d0 : ExplorationData F P X),
      let d := steps.foldl (fun d st => d.append st.1 st.2.1 st.2.2) d0
      d.rgb_images.length = d0.rgb_images.length + steps.length ∧
      d.trajectory.length = d0.trajectory.length + steps.length ∧
      d.trajectory_pixels.length = d0.trajectory_pixels.length + steps.length by
    have h := hgen steps (ExplorationData.empty F P X)
    simp only [ExplorationData.empty, List.length_nil, Nat.zero_add] at h ⊢
    exact ⟨h.1, h.2.1, h.2.2, h.1, by rw [h.1, h.2.1], by rw [h.2.1, h.2.2]⟩
  intro steps
  induction steps with
  | nil => intro d0; simp
  | cons st rest ih =>
    intro d0
    obtain ⟨h1, h2, h3⟩ := ih (d0.append st.1 st.2.1 st.2.2)
    have ha : (d0.append st.1 st.2.1 st.2.2).rgb_images.length =
        d0.rgb_images.length + 1 := by simp [ExplorationData.append]
    have hb : (d0.append st.1 st.2.1 st.2.2).trajectory.length =
        d0.trajectory.length + 1 := by simp [ExplorationData.append]
    have hc : (d0.append st.1 st.2.1 st.2.2).trajectory_pixels.length =
        d0.trajectory_pixels.length + 1 := by simp [ExplorationData.append]
    simp only [List.foldl_cons, List.length_cons]
    refine ⟨?_, ?_, ?_⟩ <;> omega

/-! The lifecycle controller and persister: `STEpisodeGenerator._reset` and
`_save_last_episode` (source lines 28-88). The superclass reset and the
per-step action computation are external collaborators and out of scope. -/

/-- The sensor state the persistence pipeline reads: configuration, the
active buffer, and the current episode/scene/map exposed by the base class. -/
structure STEpisodeGenerator (F P X : Type) where
  output_dir : String
  num_episodes : Nat
  exploration_data : ExplorationData F P X
  scene_id : String
  episode_id : Int
  top_down_map : BinMap2D

/-- Model of the `_is_last_episode_valid` property. -/
def _is_last_episode_valid (g : STEpisodeGenerator F P X) : Bool :=
  decide (10 < g.exploration_data.size)

/-- Outcome of `_save_last_episode`: `quit` models `quit()` at the quota
check, `saved` a completed `record`, `assertionError` a failed assert inside
`record`. -/
inductive SaveOutcome (F P X : Type) where
  | quit (num_done : Nat)
  | saved (fs : FS) (effects : List (Effect F P X)) (num_done : Nat)
  | assertionError (msg : String)
  deriving DecidableEq

/-- Apply one flush effect to the filesystem. -/
def applyEffect (fs : FS) : Effect F P X → FS
  | .makedirs dir => fs.makedirs dir
  | .writeJson p _ => fs.addFile p
  | .images_to_video _ p => fs.addFile p

/-- Apply a flush's effects in order. -/
def applyEffects (fs : FS) (l : List (Effect F P X)) : FS :=
  l.foldl applyEffect fs

/-- Model of `_save_last_episode` (source lines 50-88): build the digest map
path, set the buffer's identity fields, write the map if absent, then count
the directories directly under `scene_dir` with glob and quit when that
count has reached `num_episodes`; otherwise flush the buffer into
`episode_dir`. -/
def _save_last_episode (g : STEpisodeGenerator F P X) (fs : FS) :
    SaveOutcome F P X :=
  let map_filename := storePath g.top_down_map (pathJoin g.output_dir g.scene_id)
  let d := g.exploration_data.set_ids g.episode_id g.scene_id map_filename
  let fs1 := if fs.isFile map_filename then fs
    else save_map g.top_down_map map_filename fs
  let scene_dir := pathJoin g.output_dir g.scene_id
  let episode_dir := pathJoin scene_dir (intDecimal g.episode_id)
  let num_done := countDirectSubdirs fs1 scene_dir
  if g.num_episodes ≤ num_done then .quit num_done
  else
    match d.record episode_dir (fs1.isDir episode_dir) with
    | .error msg => .assertionError msg
    | .ok (effects, _) => .saved (applyEffects fs1 effects) effects num_done

/-- Outcome of `_reset`: the process either quits at the quota, dies on an
assertion, or continues with the post-reset sensor state, the filesystem,
and whether the finished episode went down the save path. -/
inductive ResetOutcome (F P X : Type) where
  | quit (num_done : Nat)
  | assertionError (msg : String)
  | ok (g : STEpisodeGenerator F P X) (fs : FS) (savedLast : Bool)

/-- Model of `_reset` (source lines 40-48): save the last episode when it is
valid, otherwise drop it; then (after the superclass reset, external) replace
the buffer with a fresh `ExplorationData()`. -/
def _reset (g : STEpisodeGenerator F P X) (fs : FS) : ResetOutcome F P X :=
  if _is_last_episode_valid g then
    match _save_last_episode g fs with
    | .quit n => .quit n
    | .assertionError m => .assertionError m
    | .saved fs' _ _ =>
      .ok { g with exploration_data := ExplorationData.empty F P X } fs' true
  else .ok { g with exploration_data := ExplorationData.empty F P X } fs false

/-- Whether the boundary handling handed the buffer to the persistence path
(`_save_last_episode`), rather than discarding it. -/
def savePathTaken : ResetOutcome F P X → Bool
  | .quit _ => true
  | .assertionError _ => true
  | .ok _ _ s => s

/-- C2: at an episode boundary the buffered episode is handed to persistence
exactly when its length is strictly greater than ten; a buffer of length ten
is discarded, one of length eleven goes to the persister. -/
theorem reset_saves_iff_longer_than_ten (g : STEpisodeGenerator F P X) (fs : FS) :
    savePathTaken (_reset g fs) = decide (10 < g.exploration_data.size) := by
  unfold _reset _is_last_episode_valid
  cases hd : decide (10 < g.exploration_data.size) with
  | true =>
    simp only [hd, if_true]
    cases _save_last_episode g fs <;> rfl
  | false =>
    simp [hd, savePathTaken]

/-- A 1-by-1 map for concrete lifecycle evaluations. -/
def mapC1 : BinMap2D := ⟨1, 1, [[true]], rfl, by simp⟩

/-- A sensor state with quota one over an empty output tree. -/
def genC1 : STEpisodeGenerator Nat Nat Nat :=
  ⟨"out", 1, ExplorationData.empty Nat Nat Nat, "scene", 0, mapC1⟩

set_option maxRecDepth 100000 in
/-- C1: evaluation of the persister at a failing input. The scene directory
holds zero previously persisted episode subdirectories and the quota is one,
so by the claim persistence should proceed; but the glob count also includes
the `topdown_maps` directory that the map save just created, so the code
counts one and quits without persisting. -/
theorem quota_counts_topdown_maps_dir :
    _save_last_episode genC1 ⟨[], []⟩ = SaveOutcome.quit 1 ∧
    countDirectSubdirs ⟨[], []⟩ (pathJoin "out" "scene") = 0 ∧
    genC1.num_episodes = 1 := by
  refine ⟨?_, rfl, rfl⟩
  decide

/-- A one-step buffer with identity fields set. -/
def bufC4 : ExplorationData Nat Nat Nat :=
  ⟨[42], [3], [5], some 7, some "sc", some "mp"⟩

/-- The effects of flushing `bufC4` into an existing directory `"ep"`. -/
def effC4 : List (Effect Nat Nat Nat) :=
  [.writeJson (pathJoin "ep" ("sc" ++ "_" ++ intDecimal 7 ++ ".json"))
     [("ep_id", .int 7), ("ep_scene_id", .str "sc"), ("trajectory", .poses [3]),
      ("trajectory_pixels", .pixels [5]), ("map_filename", .str "mp")],
   .images_to_video [42] (pathJoin "ep" "video.mp4")]

/-- C4 counterexample: a successful flush whose post-state buffer still holds
its RGB frame — `record` hands the frames to the video encoder but clears no
attribute, so the buffer retains the frames after the flush. -/
theorem record_retains_frames_cex :
    bufC4.record "ep" true = .ok (effC4, bufC4) ∧ bufC4.rgb_images = [42] :=
  ⟨rfl, rfl⟩

/-- C4 as amended: at flush time the frames are passed to the video encoder
but the buffer keeps them (the post-flush buffer equals the pre-flush one);
the frames are released only when the lifecycle controller replaces the
buffer with a fresh empty `ExplorationData` at the episode boundary. -/
theorem record_retains_frames_until_reset :
    (∀ {F P X : Type} (d : ExplorationData F P X) (dir : String) (ex : Bool)
      (out : List (Effect F P X) × ExplorationData F P X),
      d.record dir ex = .ok out →
      out.2.rgb_images = d.rgb_images ∧
      Effect.images_to_video d.rgb_images (pathJoin dir "video.mp4") ∈ out.1) ∧
    (∀ {F P X : Type} (g : STEpisodeGenerator F P X) (fs : FS)
      (g' : STEpisodeGenerator F P X) (fs' : FS) (s : Bool),
      _reset g fs = .ok g' fs' s → g'.exploration_data.rgb_images = []) := by
  constructor
  · intro F P X d dir ex out h
    unfold ExplorationData.record at h
    split at h
    · split at h
      · rw [Except.ok.injEq] at h
        subst h
        exact ⟨rfl, by simp⟩
      all_goals exact absurd h (by simp)
    · exact absurd h (by simp)
  · intro F P X g fs g' fs' s h
    unfold _reset at h
    split at h
    · split at h
      · exact absurd h (by simp)
      · exact absurd h (by simp)
      · rw [ResetOutcome.ok.injEq] at h
        rw [← h.1]
        rfl
    · rw [ResetOutcome.ok.injEq] at h
      rw [← h.1]
      rfl

/-- The generator around `bufC4`, before an episode boundary. -/
def genC4 : STEpisodeGenerator Nat Nat Nat := ⟨"out", 5, bufC4, "sc", 0, mapC1⟩

/-- The generator after the boundary: a fresh buffer is installed. -/
def gAfterC4 : STEpisodeGenerator Nat Nat Nat :=
  { genC4 with exploration_data := ExplorationData.empty Nat Nat Nat }

/-- C4 witness: the amended statement at `bufC4` and its generator. -/
theorem record_retains_frames_until_reset_witness :
    (Effect.images_to_video bufC4.rgb_images (pathJoin "ep" "video.mp4") ∈ effC4) ∧
    gAfterC4.exploration_data.rgb_images = [] :=
  ⟨(record_retains_frames_until_reset.1 bufC4 "ep" true (effC4, bufC4) rfl).2,
   record_retains_frames_until_reset.2 genC4 ⟨[], []⟩ gAfterC4 ⟨[], []⟩ false rfl⟩

end FrontierExploration
